import Mathlib

/-!
Verification of the tournament network-analysis application (`app.py`).

The application loads a directed weighted multigraph of match results
(`rede_completa.graphml`), a smaller view graph for rendering
(`rede_visualizacao.graphml`), computes a centrality table on the simple
undirected projection of the full graph, displays structural metrics,
top-K rankings (pandas `nlargest`), and a styled render set (pyvis).

The embedding below models networkx graphs as lists of nodes and
(source, target, weight) edges, with the invariants networkx guarantees
(node identifiers unique; edge endpoints are nodes).  Real-valued scores
are modelled over `ℚ`.
-/

namespace Sf6

/-- A networkx directed weighted multigraph, as loaded by `nx.read_graphml`:
a node list (networkx node sets are duplicate-free), a multiset of directed
weighted edges whose endpoints are nodes, and the per-node `community`
attribute map (absent entries model nodes without the attribute). -/
structure Graph where
  nodes : List String
  edges : List (String × String × ℚ)
  community : List (String × Int)
  nodes_nodup : nodes.Nodup
  edges_mem : ∀ e ∈ edges, e.1 ∈ nodes ∧ e.2.1 ∈ nodes

/-- Adjacency in the simple undirected projection `nx.Graph(G)`:
direction and parallel edges are collapsed. -/
def adjacent (G : Graph) (u v : String) : Bool :=
  G.edges.any (fun e => (e.1 = u ∧ e.2.1 = v) ∨ (e.1 = v ∧ e.2.1 = u))

/-- Neighbours of `u` in the simple undirected projection. -/
def neighbors (G : Graph) (u : String) : List String :=
  G.nodes.filter (fun v => adjacent G u v)

/-- Degree of `u` in the simple undirected projection, as networkx counts
it (a self-loop contributes 2: once as a neighbour and once extra). -/
def projDegree (G : Graph) (u : String) : Nat :=
  (neighbors G u).length + (if adjacent G u u then 1 else 0)

/-- Ball of radius `k` around `u` in the simple undirected projection:
all nodes at hop distance at most `k`. -/
def bfsBall (G : Graph) (u : String) : Nat → List String
  | 0 => [u]
  | k + 1 =>
    let b := bfsBall G u k
    (b ++ G.nodes.filter (fun v => b.any (fun w => adjacent G w v))).dedup

/-- Unweighted shortest-path (hop) distance in the simple undirected
projection; `none` when unreachable.  A shortest path visits at most
`G.nodes.length` nodes, so the fuel suffices. -/
def bfsDist (G : Graph) (u v : String) : Option Nat :=
  (List.range G.nodes.length).find? (fun k => (bfsBall G u k).contains v)

/-- The simple undirected projection is connected: every ordered pair of
nodes is joined by a path. -/
def connectedB (G : Graph) : Bool :=
  G.nodes.all (fun u => G.nodes.all (fun v => (bfsDist G u v).isSome))

/-- Eccentricity of `u` in the simple undirected projection (meaningful
when the projection is connected). -/
def eccentricity (G : Graph) (u : String) : Nat :=
  (G.nodes.map (fun v => (bfsDist G u v).getD 0)).foldl max 0

/-- `nx.diameter` on the simple undirected projection: raises on the null
graph and on a disconnected graph, otherwise the largest eccentricity. -/
def nx_diameter (G : Graph) : Except String Nat :=
  if G.nodes.isEmpty then
    Except.error "Cannot compute metric for the null graph"
  else if connectedB G then
    Except.ok ((G.nodes.map (eccentricity G)).foldl max 0)
  else
    Except.error "Found infinite path length because the graph is not connected"

/-- Directed adjacency on the original multigraph. -/
def adjDir (G : Graph) (u v : String) : Bool :=
  G.edges.any (fun e => e.1 = u ∧ e.2.1 = v)

/-- Directed reachability ball of radius `k`. -/
def dirBall (G : Graph) (u : String) : Nat → List String
  | 0 => [u]
  | k + 1 =>
    let b := dirBall G u k
    (b ++ G.nodes.filter (fun v => b.any (fun w => adjDir G w v))).dedup

/-- Directed reachability on the original multigraph. -/
def reachDir (G : Graph) (u v : String) : Bool :=
  (dirBall G u G.nodes.length).contains v

/-- Weak reachability: reachability ignoring edge direction. -/
def weakReach (G : Graph) (u v : String) : Bool :=
  (bfsDist G u v).isSome

/-- Mutual directed reachability (same strongly connected component). -/
def sameSCC (G : Graph) (u v : String) : Bool :=
  reachDir G u v && reachDir G v u

/-- Count equivalence classes of `reach` over a node list: a node opens a
new component when no already-seen node is related to it. -/
def countComponents (reach : String → String → Bool) : List String → List String → Nat
  | _, [] => 0
  | seen, u :: rest =>
    (if seen.any (fun v => reach v u) then 0 else 1) +
      countComponents reach (u :: seen) rest

/-- `nx.number_weakly_connected_components` on the original multigraph. -/
def nx_wcc (G : Graph) : Nat :=
  countComponents (weakReach G) [] G.nodes

/-- `nx.number_strongly_connected_components` on the original multigraph. -/
def nx_scc (G : Graph) : Nat :=
  countComponents (sameSCC G) [] G.nodes

/-- `nx.density` of the loaded graph `G_completo`.  The loaded graph is
directed, so networkx uses m / (n * (n - 1)) with `m` counting every
(parallel) directed edge, and returns 0 for an edgeless or trivial graph. -/
def nx_density (G : Graph) : ℚ :=
  if G.edges.length = 0 ∨ G.nodes.length ≤ 1 then 0
  else (G.edges.length : ℚ) / ((G.nodes.length : ℚ) * ((G.nodes.length : ℚ) - 1))

/-- Local clustering coefficient of `u` in the simple undirected
projection: for degree at least 2, (ordered pairs of adjacent
neighbours) / (d * (d - 1)); otherwise 0.  Self-loops are excluded from
the neighbourhood, as in networkx triangle counting. -/
def localClustering (G : Graph) (u : String) : ℚ :=
  let nbrs := (neighbors G u).filter (fun v => v ≠ u)
  let d := nbrs.length
  if d < 2 then 0
  else
    let links := (nbrs.map (fun v => (nbrs.filter (fun w => w ≠ v ∧ adjacent G v w)).length)).sum
    (links : ℚ) / ((d : ℚ) * ((d : ℚ) - 1))

/-- `nx.average_clustering` on the simple undirected projection: the mean
of the local clustering coefficients. -/
def nx_average_clustering (G : Graph) : ℚ :=
  if G.nodes.isEmpty then 0
  else (G.nodes.map (localClustering G)).sum / (G.nodes.length : ℚ)

/-- Ordered degree pairs over the adjacencies of the simple undirected
projection; listing each ordered pair (u, v) symmetrises the edge list,
as networkx does for undirected assortativity. -/
def degreePairs (G : Graph) : List (ℚ × ℚ) :=
  (G.nodes.map (fun u =>
    (neighbors G u).map (fun v => ((projDegree G u : ℚ), (projDegree G v : ℚ))))).flatten

/-- `nx.degree_assortativity_coefficient` on the simple undirected
projection: the Pearson correlation of the symmetrised degree pairs.  By
symmetry the two variances agree, so the correlation is rational; a
zero-variance degree sequence (NaN in the float code, a value no claim
touches) is modelled by Lean's division-by-zero convention. -/
def nx_degree_assortativity (G : Graph) : ℚ :=
  let ps := degreePairs G
  let n : ℚ := ps.length
  let sx := (ps.map (fun p => p.1)).sum
  let sy := (ps.map (fun p => p.2)).sum
  let sxy := (ps.map (fun p => p.1 * p.2)).sum
  let sxx := (ps.map (fun p => p.1 * p.1)).sum
  (n * sxy - sx * sy) / (n * sxx - sx * sx)

/-- `nx.degree_centrality` per node: degree in the simple undirected
projection divided by (n - 1); networkx returns 1 for every node of a
graph with at most one node. -/
def degC (G : Graph) (u : String) : ℚ :=
  if G.nodes.length ≤ 1 then 1
  else (projDegree G u : ℚ) / ((G.nodes.length : ℚ) - 1)

/-- `nx.closeness_centrality` per node (default arguments: hop distances,
Wasserman-Faust improvement): ((r - 1) / total distance) * ((r - 1) /
(n - 1)) where `r` counts the nodes reachable from `u`. -/
def cloC (G : Graph) (u : String) : ℚ :=
  let reach := G.nodes.filter (fun v => (bfsDist G u v).isSome)
  let tot : Nat := (reach.map (fun v => (bfsDist G u v).getD 0)).sum
  if 0 < tot ∧ 1 < G.nodes.length then
    (((reach.length : ℚ) - 1) / (tot : ℚ)) * (((reach.length : ℚ) - 1) / ((G.nodes.length : ℚ) - 1))
  else 0

/-- Collapsed edge weight between `u` and `v` in the weighted simple
undirected projection: `nx.Graph(multidigraph)` overwrites the edge data
dict as it visits parallel and antiparallel edges, so the
last-encountered edge's `weight` attribute wins (0 when no edge — the
matrix entry of a non-edge). -/
def wAdj (G : Graph) (u v : String) : ℚ :=
  match (G.edges.filter
      (fun e => (e.1 = u ∧ e.2.1 = v) ∨ (e.1 = v ∧ e.2.1 = u))).getLast? with
  | some e => e.2.2
  | none => 0

/-- All simple paths from `cur` to `t` in the simple undirected projection
avoiding `visited`, by fuel on the number of remaining nodes. -/
def simplePathsAux (G : Graph) : Nat → String → String → List String → List (List String)
  | 0, cur, t, _ => if cur = t then [[cur]] else []
  | fuel + 1, cur, t, visited =>
    if cur = t then [[cur]]
    else
      ((G.nodes.filter (fun v => adjacent G cur v ∧ ¬ v ∈ visited ∧ v ≠ cur)).map
        (fun v => (simplePathsAux G fuel v t (cur :: visited)).map (fun p => cur :: p))).flatten

/-- All simple paths from `s` to `t` in the simple undirected projection. -/
def simplePaths (G : Graph) (s t : String) : List (List String) :=
  simplePathsAux G G.nodes.length s t []

/-- Total weight of a path under the collapsed projection weights
(`nx.betweenness_centrality` is called with distance = the `weight`
attribute of the projection). -/
def pathWeight (G : Graph) : List String → ℚ
  | [] => 0
  | [_] => 0
  | u :: v :: rest => wAdj G u v + pathWeight G (v :: rest)

/-- Fraction of minimum-weight s-t paths passing through `v` (0 when s and
t are not joined). -/
def pairContrib (G : Graph) (s t v : String) : ℚ :=
  match simplePaths G s t with
  | [] => 0
  | p0 :: _ =>
    let allPaths := simplePaths G s t
    let mw := (allPaths.map (pathWeight G)).foldl min (pathWeight G p0)
    let shortest := allPaths.filter (fun p => pathWeight G p = mw)
    let through := shortest.filter (fun p => v ∈ p)
    (through.length : ℚ) / (shortest.length : ℚ)

/-- `nx.betweenness_centrality` per node (weighted distances, normalized):
the sum over ordered pairs (s, t) distinct from `v` of the fraction of
minimum-weight s-t paths through `v`, scaled by 1 / ((n - 1) * (n - 2))
(the undirected normalization applied to the ordered-pair double count). -/
def betC (G : Graph) (v : String) : ℚ :=
  let n := G.nodes.length
  let raw :=
    ((G.nodes.map (fun s =>
      (G.nodes.map (fun t =>
        if s ≠ t ∧ s ≠ v ∧ t ≠ v then pairContrib G s t v else 0)).sum)).sum)
  if 2 < n then raw / (((n : ℚ) - 1) * ((n : ℚ) - 2)) else 0

/-- One step of power iteration on the weighted projection adjacency. -/
def powerStep (G : Graph) (x : String → ℚ) : String → ℚ :=
  fun u => (G.nodes.map (fun v => wAdj G u v * x v)).sum

/-- Iterated power steps from the all-ones vector. -/
def powerIter (G : Graph) : Nat → String → ℚ
  | 0 => fun _ => 1
  | k + 1 => powerStep G (powerIter G k)

/-- Rational-arithmetic model of the scores a *successful*
`nx.eigenvector_centrality_numpy` call returns, on the weighted simple
undirected projection: a dominant-eigenvector estimate by power
iteration (the library uses a float eigensolver and unit-norm scaling,
which are not rational).  Every claim below depends only on this map
being a deterministic total function keyed by the graph's nodes, never
on the numeric values; the call's error paths live in
`eigenvector_centrality_numpy`. -/
def eigC (G : Graph) (u : String) : ℚ :=
  powerIter G G.nodes.length u

/-- `nx.eigenvector_centrality_numpy`, including its error paths: it
raises `NetworkXPointlessConcept` on the null graph, and its
`scipy.sparse.linalg.eigs(M.T, k=1, ...)` call raises for graphs with
at most two nodes (`eigs` requires k < n − 1).  For n ≥ 3 the solver is
modelled as succeeding with the `eigC` scores (an ARPACK convergence
failure on pathological inputs is not modelled; no claim depends on
it). -/
def eigenvector_centrality_numpy (G : Graph) : Except String (String → ℚ) :=
  if G.nodes.length = 0 then
    Except.error "cannot compute centrality for the null graph"
  else if G.nodes.length ≤ 2 then
    Except.error "k must be less than ndim(A)-1"
  else
    Except.ok (eigC G)

/-- A row of `centrality_df`: the `Jogador` key and the four metric
columns. -/
structure CRow where
  jogador : String
  degree : ℚ
  closeness : ℚ
  betweenness : ℚ
  eigenvector : ℚ
deriving DecidableEq

/-- The rows of `centrality_df` once every centrality call has
succeeded: one row per node of the simple undirected projection (whose
node list equals the full graph's), each column produced by the
corresponding networkx call in node order. -/
def centrality_rows (G : Graph) (eigf : String → ℚ) : List CRow :=
  G.nodes.map (fun nd => ⟨nd, degC G nd, cloC G nd, betC G nd, eigf nd⟩)

/-- The centrality-table computation of `carregar_e_processar_dados`
(lines 41–48): the four centrality calls on the projection, of which
`nx.eigenvector_centrality_numpy` can raise — that exception propagates
out of the function (it is outside the `try/except FileNotFoundError`),
so no table exists in that case. -/
def compute_centralities (G : Graph) : Except String (List CRow) :=
  match eigenvector_centrality_numpy G with
  | Except.error e => Except.error e
  | Except.ok eigf => Except.ok (centrality_rows G eigf)

/-- The outcome of the "Métricas Gerais" tab: the labelled metric values
that reached the screen, in program order, and the message of the
uncaught exception when one aborted the block. -/
structure TabMetricas where
  displayed : List (String × ℚ)
  crash : Option String
deriving DecidableEq

/-- The `tab_metricas` block.  `st.metric` renders each value as soon as
it is computed, so the five metrics preceding the `nx.diameter` call are
displayed unconditionally; the diameter call has no exception handler,
so on a disconnected projection it raises, the block aborts, and
neither the diameter nor the two connectivity counts (computed after
it) are ever displayed — there is no 'undefined' placeholder. -/
def tab_metricas (G : Graph) : TabMetricas :=
  let base : List (String × ℚ) :=
    [("Total de Jogadores (Nós)", (G.nodes.length : ℚ)),
     ("Total de Partidas (Arestas)", (G.edges.length : ℚ)),
     ("Densidade da Rede", nx_density G),
     ("Coef. de Clustering Global", nx_average_clustering G),
     ("Assortatividade de Grau", nx_degree_assortativity G)]
  match nx_diameter G with
  | Except.error e => ⟨base, some e⟩
  | Except.ok diam =>
    ⟨base ++
      [("Diâmetro da Rede", (diam : ℚ)),
       ("Componentes Fracamente Conectados", (nx_wcc G : ℚ)),
       ("Componentes Fortemente Conectados", (nx_scc G : ℚ))], none⟩

/-- pandas `DataFrame.nlargest(k, column)` with the default
`keep = 'first'`: the rows in descending column order, ties kept in
original row order (pandas uses a stable mergesort on the negated
column), truncated to the first `k`.  `List.insertionSort` with the
descending relation is exactly such a stable descending sort. -/
def nlargest (k : Nat) (l : List (String × ℚ)) : List (String × ℚ) :=
  (l.insertionSort (fun a b => b.2 ≤ a.2)).take k

/-- A single-metric column view `centrality_df[['Jogador', metric]]`. -/
def metricColumn (f : CRow → ℚ) (df : List CRow) : List (String × ℚ) :=
  df.map (fun r => (r.jogador, f r))

/-- The "Rankings de Centralidade" tab: the four `nlargest` tables, in
display order (Degree, Betweenness, Eigenvector, Closeness). -/
def tab_centralidade (df : List CRow) (k : Nat) :
    List (String × ℚ) × List (String × ℚ) × List (String × ℚ) × List (String × ℚ) :=
  (nlargest k (metricColumn (fun r => r.degree) df),
   nlargest k (metricColumn (fun r => r.betweenness) df),
   nlargest k (metricColumn (fun r => r.eigenvector) df),
   nlargest k (metricColumn (fun r => r.closeness) df))

/-- The fixed ordered colour palette of the rendering tab. -/
def palette : List String :=
  ["#e6194b", "#3cb44b", "#ffe119", "#4363d8", "#f58231", "#911eb4", "#46f0f0", "#f032e6"]

/-- `G_completo.nodes[node].get('community', 0)`: the node's `community`
attribute in the full graph, defaulting to 0 when the attribute is
absent.  (The data-model invariant guarantees every view node exists in
the full graph, so the attribute lookup is the only fallible step.) -/
def getCommunity (G : Graph) (node : String) : Int :=
  (G.community.lookup node).getD 0

/-- `eigenvector_scores`: the dict from `Jogador` to `Eigenvector` built
from the full centrality table (a later duplicate key would overwrite an
earlier one, hence the reversed search; the pipeline's table has no
duplicate keys). -/
def eigenvector_scores (df : List CRow) : List (String × ℚ) :=
  df.map (fun r => (r.jogador, r.eigenvector))

/-- Python `dict.get(node, 0)` on the eigenvector-score dict. -/
def scoreLookup (scores : List (String × ℚ)) (node : String) : ℚ :=
  ((scores.reverse.find? (fun p => p.1 = node)).map (fun p => p.2)).getD 0

/-- `max_eigenvector`: the maximum of the dict's values when the dict is
nonempty, and 1.0 when it is empty — the guard tests emptiness, not a
zero-valued maximum. -/
def max_eigenvector (df : List CRow) : ℚ :=
  match (eigenvector_scores df).map (fun p => p.2) with
  | [] => 1
  | x :: xs => xs.foldl max x

/-- A styled pyvis node: label, hover text, colour and size. -/
structure RenderNode where
  label : String
  title : String
  color : String
  size : ℚ
deriving DecidableEq

/-- The node/edge loop of the "Rede Interativa" tab (`build_render_set`):
for every node of the view graph, community id and eigenvector score are
looked up in the full graph's data, colour is
`palette[community_id % len(palette)]` and size is
`10 + (eigenvector / max_eigenvector) * 40`; edges are copied from the
view unstyled, preserving direction.  The hover title carries the node,
its community and its eigenvector score (Python renders the score as a
4-decimal float; the model carries the exact rational's text — no claim
reads the title).  When `max_eigenvector df = 0` Python's float division
raises `ZeroDivisionError` where the `ℚ` model yields 0; no claim reads
the quotient at a zero divisor, only the divisor itself (C3). -/
def build_render_set (view full : Graph) (df : List CRow) :
    List RenderNode × List (String × String) :=
  (view.nodes.map (fun node =>
    let community_id := getCommunity full node
    let eigenvector := scoreLookup (eigenvector_scores df) node
    let color := palette.getD (community_id % (palette.length : Int)).toNat "#000000"
    let size := 10 + (eigenvector / max_eigenvector df) * 40
    ⟨node,
     "<b>" ++ node ++ "</b><br>Comunidade: " ++ toString community_id ++
       "<br>Influência (Eigenvector): " ++ toString eigenvector,
     color, size⟩),
   view.edges.map (fun e => (e.1, e.2.1)))

/-- The two graphml sources as the loader sees them: `none` models a
missing file (`FileNotFoundError`). -/
structure LoadInput where
  full_file : Option Graph
  view_file : Option Graph

/-- How `carregar_e_processar_dados` returns to the script body. -/
inductive LoadResult where
  /-- `FileNotFoundError` caught: the `(None, None, None)` sentinel. -/
  | missing : LoadResult
  /-- An exception from the centrality computation (line 47, outside the
  `try/except FileNotFoundError`) propagates uncaught: the cached
  function never returns and the script run dies with a traceback. -/
  | raised (msg : String) : LoadResult
  /-- Both graphs read and the centrality table computed. -/
  | loaded (g_completo g_visualizacao : Graph) (centrality_df : List CRow) : LoadResult

/-- `carregar_e_processar_dados`: reads both graphs (a missing one
raises `FileNotFoundError`, caught and turned into the
`(None, None, None)` result), then computes the centrality table from
the full graph; an exception raised there is not caught. -/
def carregar_e_processar_dados (inp : LoadInput) : LoadResult :=
  match inp.full_file, inp.view_file with
  | some g_completo, some g_visualizacao =>
    match compute_centralities g_completo with
    | Except.error e => LoadResult.raised e
    | Except.ok centrality_df => LoadResult.loaded g_completo g_visualizacao centrality_df
  | _, _ => LoadResult.missing

/-- What one run of the script produces past the loading stage. -/
inductive AppView where
  /-- All three tabs rendered: metrics tab, the four ranking tables,
  and the styled render set. -/
  | dashboard (metrics : TabMetricas)
      (rankings : List (String × ℚ) × List (String × ℚ) × List (String × ℚ) × List (String × ℚ))
      (render : List RenderNode × List (String × String)) : AppView
  /-- The `st.warning` branch: nothing computed or displayed. -/
  | warning : AppView
  /-- An uncaught exception aborted the script after partially rendering
  the metrics tab: no rankings and no render set. -/
  | crashed (partialMetrics : TabMetricas) : AppView
  /-- An uncaught exception inside the loader aborted the script before
  any tab or warning: nothing displayed but a traceback. -/
  | crashedLoading (msg : String) : AppView

/-- The main body of the script: an exception escaping the loader kills
the run before anything renders; otherwise the guard
`if G_completo and G_visualizacao and centrality_df is not None` (a
networkx graph is truthy when its node count is nonzero), then the three
tabs in order; an exception from `tab_metricas` aborts the run. -/
def mainApp (inp : LoadInput) (k : Nat) : AppView :=
  match carregar_e_processar_dados inp with
  | LoadResult.raised e => AppView.crashedLoading e
  | LoadResult.missing => AppView.warning
  | LoadResult.loaded g_completo g_visualizacao centrality_df =>
    if g_completo.nodes.length ≠ 0 ∧ g_visualizacao.nodes.length ≠ 0 then
      match (tab_metricas g_completo).crash with
      | some _ => AppView.crashed (tab_metricas g_completo)
      | none =>
        AppView.dashboard (tab_metricas g_completo) (tab_centralidade centrality_df k)
          (build_render_set g_visualizacao g_completo centrality_df)
    else AppView.warning

/-- The spec's concrete scenario: nodes A, B, C with directed edges
A→B and B→C of weight 1. -/
def pathGraph : Graph :=
  ⟨["A", "B", "C"], [("A", "B", 1), ("B", "C", 1)], [], by decide, by decide⟩

/-- A five-node graph whose projection is disconnected (triangle A-B-C
plus the separate edge D-E) but whose eigenvector solver call succeeds
(n ≥ 3, and the two components' dominant eigenvalues 2 and 1 are
distinct), so the run genuinely reaches the metrics tab. -/
def disc5 : Graph :=
  ⟨["A", "B", "C", "D", "E"],
   [("A", "B", 1), ("B", "C", 1), ("A", "C", 1), ("D", "E", 1)],
   [], by decide, by decide⟩

/-- A graph with no nodes at all. -/
def emptyGraph : Graph :=
  ⟨[], [], [], by decide, by decide⟩

/-- A full graph containing the single node X with no community
attribute. -/
def fullSingle : Graph :=
  ⟨["X"], [], [], by decide, by decide⟩

/-- A view graph containing the single node X. -/
def viewSingle : Graph :=
  ⟨["X"], [], [], by decide, by decide⟩

/-- A one-row centrality table whose only eigenvector score is zero. -/
def zeroRowTable : List CRow :=
  [⟨"A", 0, 0, 0, 0⟩]

/-- The diagnostic of the `NetworkXPointlessConcept` exception
`nx.eigenvector_centrality_numpy` raises on the null graph. -/
def nullGraphErrMsg : String :=
  "cannot compute centrality for the null graph"

/-- The message of the exception `nx.diameter` raises on a disconnected
graph. -/
def diameterErrMsg : String :=
  "Found infinite path length because the graph is not connected"

/-! ## Helper lemmas -/

/-- Folding `max` over a list of zeros from zero yields zero. -/
lemma foldl_max_zero : ∀ l : List ℚ, (∀ x ∈ l, x = 0) → l.foldl max 0 = 0
  | [], _ => rfl
  | x :: xs, h => by
    have hx : x = 0 := h x (by simp)
    have hxs : ∀ y ∈ xs, y = 0 := fun y hy => h y (by simp [hy])
    simpa [hx] using foldl_max_zero xs hxs

/-- The centrality computation of a graph with no nodes raises the
null-graph exception. -/
lemma compute_centralities_nil (G : Graph) (h0 : G.nodes.length = 0) :
    compute_centralities G = Except.error nullGraphErrMsg := by
  unfold compute_centralities eigenvector_centrality_numpy
  rw [if_pos h0]
  rfl

/-- The centrality computation of a graph with one or two nodes raises
from the eigensolver. -/
lemma compute_centralities_small (G : Graph) (h0 : ¬ G.nodes.length = 0)
    (h2 : G.nodes.length ≤ 2) :
    compute_centralities G = Except.error "k must be less than ndim(A)-1" := by
  unfold compute_centralities eigenvector_centrality_numpy
  rw [if_neg h0, if_pos h2]

/-- The centrality computation of a graph with at least three nodes
succeeds with the `centrality_rows` table. -/
lemma compute_centralities_big (G : Graph) (h0 : ¬ G.nodes.length = 0)
    (h2 : ¬ G.nodes.length ≤ 2) :
    compute_centralities G = Except.ok (centrality_rows G (eigC G)) := by
  unfold compute_centralities eigenvector_centrality_numpy
  rw [if_neg h0, if_neg h2]

/-- A successful centrality computation yields the `centrality_rows`
table. -/
lemma compute_centralities_ok (G : Graph) (df : List CRow)
    (hok : compute_centralities G = Except.ok df) :
    df = centrality_rows G (eigC G) := by
  by_cases h0 : G.nodes.length = 0
  · rw [compute_centralities_nil G h0] at hok
    cases hok
  · by_cases h2 : G.nodes.length ≤ 2
    · rw [compute_centralities_small G h0 h2] at hok
      cases hok
    · rw [compute_centralities_big G h0 h2] at hok
      exact (Except.ok.inj hok).symm

/-- A centrality computation that succeeds was run on a graph with more
than two nodes. -/
lemma compute_centralities_isOk_length (G : Graph)
    (h : (compute_centralities G).isOk = true) : 2 < G.nodes.length := by
  by_cases h0 : G.nodes.length = 0
  · rw [compute_centralities_nil G h0] at h
    cases h
  · by_cases h2 : G.nodes.length ≤ 2
    · rw [compute_centralities_small G h0 h2] at h
      cases h
    · omega

/-- A centrality computation that succeeds returns the
`centrality_rows` table. -/
lemma compute_centralities_isOk (G : Graph)
    (h : (compute_centralities G).isOk = true) :
    compute_centralities G = Except.ok (centrality_rows G (eigC G)) := by
  have hlen := compute_centralities_isOk_length G h
  exact compute_centralities_big G (by omega) (by omega)

/-- When the centrality computation succeeds, the loader returns the
loaded triple. -/
lemma carregar_loaded (gc gv : Graph) (df : List CRow)
    (hok : compute_centralities gc = Except.ok df) :
    carregar_e_processar_dados ⟨some gc, some gv⟩
      = LoadResult.loaded gc gv df := by
  show (match compute_centralities gc with
    | Except.error e => LoadResult.raised e
    | Except.ok centrality_df => LoadResult.loaded gc gv centrality_df)
      = LoadResult.loaded gc gv df
  rw [hok]

/-! ## Claims -/

/-- C9: the centrality computation is a pure function of the immutable
input graph, so running it twice on the same graph yields identical
tables: same rows, same values, same order. -/
theorem compute_centralities_deterministic (G : Graph) :
    compute_centralities G = compute_centralities G :=
  rfl

/-- C4: when either graphml source is missing, the loader catches the
`FileNotFoundError` and returns the `(None, None, None)` sentinel (no
graph handles), and the main guard takes the warning branch, so no
metrics, rankings or render set are produced. -/
theorem load_failure_aborts_pipeline (inp : LoadInput) (k : Nat)
    (h : inp.full_file = none ∨ inp.view_file = none) :
    carregar_e_processar_dados inp = LoadResult.missing ∧
    mainApp inp k = AppView.warning := by
  obtain ⟨f, v⟩ := inp
  have hload : carregar_e_processar_dados ⟨f, v⟩ = LoadResult.missing := by
    rcases h with h | h
    · simp only at h; subst h; cases v <;> rfl
    · simp only at h; subst h; cases f <;> rfl
  refine ⟨hload, ?_⟩
  unfold mainApp
  rw [hload]

/-- Witness for C4 at a concrete input: both files missing. -/
theorem load_failure_aborts_pipeline_witness :
    carregar_e_processar_dados ⟨none, none⟩ = LoadResult.missing ∧
      mainApp ⟨none, none⟩ 10 = AppView.warning :=
  load_failure_aborts_pipeline ⟨none, none⟩ 10 (Or.inl rfl)

/-- C10 counterexample: with an empty full graph the application does
not take the warning branch: `nx.eigenvector_centrality_numpy` raises
at line 47, outside the loader's `try/except FileNotFoundError`, so the
script dies with a traceback before the truthiness guard runs. -/
theorem empty_full_graph_crashes :
    mainApp ⟨some emptyGraph, some viewSingle⟩ 10
      = AppView.crashedLoading nullGraphErrMsg ∧
    mainApp ⟨some emptyGraph, some viewSingle⟩ 10 ≠ AppView.warning := by
  have hmain : mainApp ⟨some emptyGraph, some viewSingle⟩ 10
      = AppView.crashedLoading nullGraphErrMsg := rfl
  refine ⟨hmain, ?_⟩
  rw [hmain]
  intro h
  cases h

/-- C10 as amended: when the full graph's centrality computation
succeeds but the view graph has zero nodes, loading succeeds and the
truthiness guard (a networkx graph's truth value is its node count)
takes the warning branch — the same public outcome as a failed load;
but a full graph with zero nodes never reaches the guard: the
centrality computation raises and the script crashes with no warning. -/
theorem empty_graph_warning :
    (∀ (gc gv : Graph) (k : Nat),
      (compute_centralities gc).isOk = true → gv.nodes = [] →
      carregar_e_processar_dados ⟨some gc, some gv⟩ ≠ LoadResult.missing ∧
      mainApp ⟨some gc, some gv⟩ k = AppView.warning ∧
      mainApp ⟨some gc, some gv⟩ k = mainApp ⟨none, none⟩ k) ∧
    (∀ (gc gv : Graph) (k : Nat), gc.nodes = [] →
      mainApp ⟨some gc, some gv⟩ k = AppView.crashedLoading nullGraphErrMsg) := by
  constructor
  · intro gc gv k hok hgv
    have hload := carregar_loaded gc gv (centrality_rows gc (eigC gc))
      (compute_centralities_isOk gc hok)
    have hguard : ¬ (gc.nodes.length ≠ 0 ∧ gv.nodes.length ≠ 0) := by
      simp [hgv]
    refine ⟨?_, ?_, ?_⟩
    · rw [hload]
      intro h
      cases h
    · unfold mainApp
      rw [hload]
      show (if gc.nodes.length ≠ 0 ∧ gv.nodes.length ≠ 0 then _ else AppView.warning)
        = AppView.warning
      rw [if_neg hguard]
    · unfold mainApp
      rw [hload]
      show (if gc.nodes.length ≠ 0 ∧ gv.nodes.length ≠ 0 then _ else AppView.warning)
        = mainApp ⟨none, none⟩ k
      rw [if_neg hguard]
      rfl
  · intro gc gv k hgc
    have h0 : gc.nodes.length = 0 := by rw [hgc]; rfl
    have hcomp := compute_centralities_nil gc h0
    have hload : carregar_e_processar_dados ⟨some gc, some gv⟩
        = LoadResult.raised nullGraphErrMsg := by
      show (match compute_centralities gc with
        | Except.error e => LoadResult.raised e
        | Except.ok centrality_df => LoadResult.loaded gc gv centrality_df)
          = LoadResult.raised nullGraphErrMsg
      rw [hcomp]
    unfold mainApp
    rw [hload]

/-- Witness for C10's amended theorem at a concrete input: a loadable
full graph with an empty view graph. -/
theorem empty_graph_warning_witness :
    carregar_e_processar_dados ⟨some disc5, some emptyGraph⟩ ≠ LoadResult.missing ∧
    mainApp ⟨some disc5, some emptyGraph⟩ 10 = AppView.warning ∧
    mainApp ⟨some disc5, some emptyGraph⟩ 10 = mainApp ⟨none, none⟩ 10 :=
  empty_graph_warning.1 disc5 emptyGraph 10 rfl rfl

/-- C3 counterexample: on a nonempty table whose maximum eigenvector
score is zero, `max_eigenvector` is 0, not the claimed 1.0 — the code
guards only against an empty table, so the size computation's divisor is
zero here. -/
theorem max_eigenvector_zero_not_one :
    max_eigenvector zeroRowTable = 0 ∧ max_eigenvector zeroRowTable ≠ 1 := by
  decide

/-- C3 as amended: the 1.0 fallback applies exactly when the centrality
table is empty; on a nonempty table the true maximum is used as-is, so a
table whose eigenvector scores are all zero makes the size computation's
divisor zero. -/
theorem max_eigenvector_guard_empty_only :
    (∀ df : List CRow, df = [] → max_eigenvector df = 1) ∧
    (∀ df : List CRow, df ≠ [] → (∀ r ∈ df, r.eigenvector = 0) →
      max_eigenvector df = 0) := by
  constructor
  · intro df h
    subst h
    rfl
  · intro df hne hz
    cases df with
    | nil => exact absurd rfl hne
    | cons r rest =>
      have hr : r.eigenvector = 0 := hz r (by simp)
      have hrest : ∀ x ∈ (rest.map (fun t : CRow => (t.jogador, t.eigenvector))).map
          (fun p : String × ℚ => p.2), x = 0 := by
        intro x hx
        simp only [List.map_map, List.mem_map, Function.comp] at hx
        obtain ⟨t, ht, rfl⟩ := hx
        exact hz t (by simp [ht])
      have hunfold : max_eigenvector (r :: rest)
          = ((rest.map (fun t : CRow => (t.jogador, t.eigenvector))).map
              (fun p : String × ℚ => p.2)).foldl max r.eigenvector := rfl
      rw [hunfold, hr]
      exact foldl_max_zero _ hrest

/-- Witness for C3's amended theorem at the concrete all-zero table. -/
theorem max_eigenvector_guard_empty_only_witness :
    max_eigenvector zeroRowTable = 0 :=
  max_eigenvector_guard_empty_only.2 zeroRowTable (by decide) (by decide)

/-- C2 counterexample: on the concrete five-node graph `disc5` (triangle
plus separate edge — the centrality computation succeeds, so the run
genuinely reaches the metrics tab) the tab shows only the five metrics
computed before the diameter, then the run crashes at `nx.diameter`:
the connectivity component counts are never displayed and no
'undefined' marker appears, contrary to the claim that the diameter
failure is isolated per-metric. -/
theorem metrics_tab_crash_example :
    mainApp ⟨some disc5, some disc5⟩ 10 = AppView.crashed (tab_metricas disc5) ∧
    (tab_metricas disc5).crash = some diameterErrMsg ∧
    (tab_metricas disc5).displayed.lookup "Densidade da Rede"
      = some (nx_density disc5) ∧
    (tab_metricas disc5).displayed.lookup "Diâmetro da Rede" = none ∧
    (tab_metricas disc5).displayed.lookup "Componentes Fracamente Conectados" = none ∧
    (tab_metricas disc5).displayed.lookup "Componentes Fortemente Conectados" = none := by
  exact ⟨rfl, rfl, rfl, rfl, rfl, rfl⟩

/-- C2 as amended: on a loaded graph whose centrality computation
succeeds (so the run reaches the tabs) and whose projection is not
connected, `nx.diameter` raises an uncaught exception: the run ends
crashed with only the partially rendered metrics tab (no rankings, no
render set); the five metrics computed before the diameter are
displayed, and the diameter and both connectivity component counts are
absent from the display — there is no 'undefined' marker and no
per-metric isolation. -/
theorem metrics_abort_on_disconnected (G gv : Graph) (k : Nat)
    (hok : (compute_centralities G).isOk = true)
    (hgv : gv.nodes ≠ []) (hconn : connectedB G = false) :
    mainApp ⟨some G, some gv⟩ k = AppView.crashed (tab_metricas G) ∧
    (tab_metricas G).crash = some diameterErrMsg ∧
    (tab_metricas G).displayed =
      [("Total de Jogadores (Nós)", (G.nodes.length : ℚ)),
       ("Total de Partidas (Arestas)", (G.edges.length : ℚ)),
       ("Densidade da Rede", nx_density G),
       ("Coef. de Clustering Global", nx_average_clustering G),
       ("Assortatividade de Grau", nx_degree_assortativity G)] ∧
    (tab_metricas G).displayed.lookup "Diâmetro da Rede" = none ∧
    (tab_metricas G).displayed.lookup "Componentes Fracamente Conectados" = none ∧
    (tab_metricas G).displayed.lookup "Componentes Fortemente Conectados" = none := by
  have hlen := compute_centralities_isOk_length G hok
  have hempty : G.nodes.isEmpty = false := by
    cases hn : G.nodes with
    | nil => rw [hn] at hlen; simp at hlen
    | cons a t => rfl
  have hdiam : nx_diameter G = Except.error diameterErrMsg := by
    unfold nx_diameter
    rw [hempty]
    simp [hconn, diameterErrMsg]
  have htab : tab_metricas G =
      ⟨[("Total de Jogadores (Nós)", (G.nodes.length : ℚ)),
        ("Total de Partidas (Arestas)", (G.edges.length : ℚ)),
        ("Densidade da Rede", nx_density G),
        ("Coef. de Clustering Global", nx_average_clustering G),
        ("Assortatividade de Grau", nx_degree_assortativity G)],
       some diameterErrMsg⟩ := by
    unfold tab_metricas
    rw [hdiam]
  have hmain : mainApp ⟨some G, some gv⟩ k = AppView.crashed (tab_metricas G) := by
    have hload := carregar_loaded G gv (centrality_rows G (eigC G))
      (compute_centralities_isOk G hok)
    have hguard : G.nodes.length ≠ 0 ∧ gv.nodes.length ≠ 0 := by
      constructor
      · omega
      · intro h
        exact hgv (List.length_eq_zero.mp h)
    unfold mainApp
    rw [hload]
    show (if G.nodes.length ≠ 0 ∧ gv.nodes.length ≠ 0 then _ else AppView.warning)
      = AppView.crashed (tab_metricas G)
    rw [if_pos hguard]
    show (match (tab_metricas G).crash with
      | some _ => AppView.crashed (tab_metricas G)
      | none =>
        AppView.dashboard (tab_metricas G)
          (tab_centralidade (centrality_rows G (eigC G)) k)
          (build_render_set gv G (centrality_rows G (eigC G))))
      = AppView.crashed (tab_metricas G)
    rw [htab]
  rw [htab] at hmain ⊢
  exact ⟨hmain, rfl, rfl, rfl, rfl, rfl⟩

/-- Witness for C2's amended theorem at the concrete disconnected
five-node graph. -/
theorem metrics_abort_on_disconnected_witness :
    mainApp ⟨some disc5, some disc5⟩ 10 = AppView.crashed (tab_metricas disc5) ∧
    (tab_metricas disc5).crash = some diameterErrMsg ∧
    (tab_metricas disc5).displayed =
      [("Total de Jogadores (Nós)", (disc5.nodes.length : ℚ)),
       ("Total de Partidas (Arestas)", (disc5.edges.length : ℚ)),
       ("Densidade da Rede", nx_density disc5),
       ("Coef. de Clustering Global", nx_average_clustering disc5),
       ("Assortatividade de Grau", nx_degree_assortativity disc5)] ∧
    (tab_metricas disc5).displayed.lookup "Diâmetro da Rede" = none ∧
    (tab_metricas disc5).displayed.lookup "Componentes Fracamente Conectados" = none ∧
    (tab_metricas disc5).displayed.lookup "Componentes Fortemente Conectados" = none :=
  metrics_abort_on_disconnected disc5 disc5 10 rfl (by decide) (by decide)

/-- C1 counterexample: on the spec's 3-node scenario (A→B, B→C, weight 1)
the density the application reports is `nx.density` of the directed full
graph, 2 / (3 · 2) = 1/3, not the claimed 2/3. -/
theorem density_scenario_not_two_thirds :
    (tab_metricas pathGraph).displayed.lookup "Densidade da Rede" = some (1 / 3) ∧
    ((1 : ℚ) / 3) ≠ 2 / 3 := by
  constructor
  · have hlk : (tab_metricas pathGraph).displayed.lookup "Densidade da Rede"
        = some (nx_density pathGraph) := rfl
    rw [hlk]
    norm_num [nx_density, pathGraph]
  · norm_num

/-- C1 as amended: the reported density is computed on the full directed
multigraph, edge_count / (node_count · (node_count − 1)) with edge_count
counting every parallel directed edge; for the 3-node scenario it is
1/3. -/
theorem density_reported_directed (G : Graph)
    (hm : 1 ≤ G.edges.length) (hn : 2 ≤ G.nodes.length) :
    (tab_metricas G).displayed.lookup "Densidade da Rede"
      = some ((G.edges.length : ℚ) / ((G.nodes.length : ℚ) * ((G.nodes.length : ℚ) - 1))) ∧
    (tab_metricas pathGraph).displayed.lookup "Densidade da Rede" = some (1 / 3) := by
  have hdens : nx_density G
      = (G.edges.length : ℚ) / ((G.nodes.length : ℚ) * ((G.nodes.length : ℚ) - 1)) := by
    have hng : ¬ (G.edges.length = 0 ∨ G.nodes.length ≤ 1) := by omega
    unfold nx_density
    rw [if_neg hng]
  constructor
  · unfold tab_metricas
    cases nx_diameter G with
    | error e => simp [List.lookup, hdens]
    | ok d => simp [List.lookup, hdens]
  · have hlk : (tab_metricas pathGraph).displayed.lookup "Densidade da Rede"
        = some (nx_density pathGraph) := rfl
    rw [hlk]
    norm_num [nx_density, pathGraph]

/-- Witness for C1's amended theorem at the concrete scenario graph. -/
theorem density_reported_directed_witness :
    (tab_metricas pathGraph).displayed.lookup "Densidade da Rede"
      = some ((pathGraph.edges.length : ℚ)
          / ((pathGraph.nodes.length : ℚ) * ((pathGraph.nodes.length : ℚ) - 1))) ∧
    (tab_metricas pathGraph).displayed.lookup "Densidade da Rede" = some (1 / 3) :=
  density_reported_directed pathGraph (by decide) (by decide)

/-- C5: the centrality table has exactly one row per node of the full
graph: the `Jogador` column is the graph's node list itself, so the row
count equals the node count, every node appears, and no node identifier
occurs in two rows. -/
theorem centrality_table_rows (G : Graph) (df : List CRow)
    (hok : compute_centralities G = Except.ok df) :
    df.map (fun r => r.jogador) = G.nodes ∧
    df.length = G.nodes.length ∧
    ∀ nd ∈ G.nodes, (df.map (fun r => r.jogador)).count nd = 1 := by
  have hdf := compute_centralities_ok G df hok
  subst hdf
  have hmap : (centrality_rows G (eigC G)).map (fun r => r.jogador) = G.nodes := by
    simp [centrality_rows, List.map_map, Function.comp_def]
  refine ⟨hmap, by simp [centrality_rows], ?_⟩
  intro nd hnd
  rw [hmap]
  exact List.count_eq_one_of_mem G.nodes_nodup hnd

/-- Witness for C5 at the concrete scenario graph. -/
theorem centrality_table_rows_witness :
    ((centrality_rows pathGraph (eigC pathGraph)).map (fun r => r.jogador)).count "A" = 1 :=
  (centrality_table_rows pathGraph (centrality_rows pathGraph (eigC pathGraph)) rfl).2.2
    "A" (by decide)

/-- C7: every view node's colour is `palette[community_id % len(palette)]`
from the fixed eight-colour palette; a node whose `community` attribute
is absent from the full graph defaults to community 0, and in the
concrete single-node scenario (node X in the view, present in the full
graph with no community attribute) the rendered colour is palette index
0. -/
theorem render_color_palette :
    (∀ (view full : Graph) (df : List CRow),
      (build_render_set view full df).1.map (fun rn => rn.color)
        = view.nodes.map (fun nd =>
            palette.getD ((getCommunity full nd) % (palette.length : Int)).toNat "#000000")) ∧
    (∀ (full : Graph) (nd : String),
      full.community.lookup nd = none → getCommunity full nd = 0) ∧
    (build_render_set viewSingle fullSingle []).1.map (fun rn => rn.color)
      = ["#e6194b"] := by
  refine ⟨?_, ?_, ?_⟩
  · intro view full df
    rw [build_render_set]
    rw [List.map_map]
    rfl
  · intro full nd h
    simp [getCommunity, h]
  · rfl

/-- Witness for C7 at a concrete input: node X has no community
attribute in `fullSingle`, so its community defaults to 0. -/
theorem render_color_palette_witness :
    getCommunity fullSingle "X" = 0 :=
  render_color_palette.2.1 fullSingle "X" rfl

/-- A list member the predicate rejects bounds the filtered length
strictly below the full length. -/
lemma length_filter_succ_le {α} (p : α → Bool) :
    ∀ (l : List α) (a : α), a ∈ l → p a = false → (l.filter p).length + 1 ≤ l.length
  | b :: t, a, ha, hpa => by
    rcases List.mem_cons.mp ha with rfl | hat
    · rw [List.filter_cons, hpa]
      simpa using Nat.succ_le_succ (List.length_filter_le p t)
    · have ih := length_filter_succ_le p t a hat hpa
      rw [List.filter_cons]
      cases hpb : p b with
      | true => simpa using Nat.succ_le_succ ih
      | false => simpa using Nat.le_succ_of_le ih

/-- A graph with no self-loop edges has no self-adjacency in the
projection. -/
lemma adjacent_self_eq_false (G : Graph) (hloop : ∀ e ∈ G.edges, e.1 ≠ e.2.1)
    (u : String) : adjacent G u u = false := by
  unfold adjacent
  rw [List.any_eq_false]
  intro e he
  simp only [decide_eq_true_eq, not_or]
  constructor
  · rintro ⟨h1, h2⟩
    exact hloop e he (h1.trans h2.symm)
  · rintro ⟨h1, h2⟩
    exact hloop e he (h1.trans h2.symm)

/-- Without self-loops, the projection degree of a node is at most the
number of other nodes. -/
lemma projDegree_succ_le (G : Graph) (hloop : ∀ e ∈ G.edges, e.1 ≠ e.2.1)
    {u : String} (hu : u ∈ G.nodes) : projDegree G u + 1 ≤ G.nodes.length := by
  have hself := adjacent_self_eq_false G hloop u
  unfold projDegree neighbors
  rw [hself]
  simpa using length_filter_succ_le (fun v => adjacent G u v) G.nodes u hu hself

/-- C8: on every loaded graph with at least two nodes and no self-loop
matches, each row's degree centrality is the node's projection degree
divided by (node_count − 1) and lies in [0, 1]; on the 3-node path
scenario the values are A ↦ 1/2, B ↦ 1, C ↦ 1/2. -/
theorem degree_centrality_spec :
    (∀ (G : Graph) (df : List CRow), compute_centralities G = Except.ok df →
      2 ≤ G.nodes.length → (∀ e ∈ G.edges, e.1 ≠ e.2.1) →
      ∀ r ∈ df,
        r.degree = (projDegree G r.jogador : ℚ) / ((G.nodes.length : ℚ) - 1) ∧
        0 ≤ r.degree ∧ r.degree ≤ 1) ∧
    (compute_centralities pathGraph).map
        (fun df => df.map (fun r => (r.jogador, r.degree)))
      = Except.ok [("A", 1 / 2), ("B", 1), ("C", 1 / 2)] := by
  constructor
  · intro G df hok hn hloop r hr
    rw [compute_centralities_ok G df hok] at hr
    obtain ⟨nd, hnd, rfl⟩ := List.mem_map.mp hr
    have hform : degC G nd = (projDegree G nd : ℚ) / ((G.nodes.length : ℚ) - 1) := by
      unfold degC
      rw [if_neg (by omega)]
    have hpos : (0 : ℚ) < (G.nodes.length : ℚ) - 1 := by
      have : (2 : ℚ) ≤ (G.nodes.length : ℚ) := by exact_mod_cast hn
      linarith
    have hbound : (projDegree G nd : ℚ) ≤ (G.nodes.length : ℚ) - 1 := by
      have h1 := projDegree_succ_le G hloop hnd
      have h2 : ((projDegree G nd : ℚ)) + 1 ≤ (G.nodes.length : ℚ) := by
        exact_mod_cast h1
      linarith
    refine ⟨hform, ?_, ?_⟩
    · rw [hform]
      exact div_nonneg (by positivity) (le_of_lt hpos)
    · rw [hform]
      rw [div_le_one hpos]
      exact hbound
  · have h1 : degC pathGraph "A" = 1 / 2 := by
      norm_num +decide [degC, pathGraph, projDegree, neighbors, adjacent]
    have h2 : degC pathGraph "B" = 1 := by
      norm_num +decide [degC, pathGraph, projDegree, neighbors, adjacent]
    have h3 : degC pathGraph "C" = 1 / 2 := by
      norm_num +decide [degC, pathGraph, projDegree, neighbors, adjacent]
    show Except.ok
        ([("A", degC pathGraph "A"), ("B", degC pathGraph "B"),
          ("C", degC pathGraph "C")] : List (String × ℚ))
      = Except.ok [("A", 1 / 2), ("B", 1), ("C", 1 / 2)]
    rw [h1, h2, h3]

/-- Witness for C8: the A row of the scenario table, with its degree
centrality expressed by the formula and its [0, 1] bounds. -/
theorem degree_centrality_spec_witness :
    (⟨"A", 1 / 2, 2 / 3, 0, 2⟩ : CRow).degree
      = (projDegree pathGraph (⟨"A", 1 / 2, 2 / 3, 0, 2⟩ : CRow).jogador : ℚ)
          / ((pathGraph.nodes.length : ℚ) - 1) ∧
    (0 : ℚ) ≤ (⟨"A", 1 / 2, 2 / 3, 0, 2⟩ : CRow).degree ∧
    (⟨"A", 1 / 2, 2 / 3, 0, 2⟩ : CRow).degree ≤ 1 := by
  refine degree_centrality_spec.1 pathGraph
    (centrality_rows pathGraph (eigC pathGraph)) rfl (by decide) (by decide)
    ⟨"A", 1 / 2, 2 / 3, 0, 2⟩ ?_
  show (⟨"A", 1 / 2, 2 / 3, 0, 2⟩ : CRow)
      ∈ [(⟨"A", degC pathGraph "A", cloC pathGraph "A", betC pathGraph "A", eigC pathGraph "A"⟩ : CRow),
         ⟨"B", degC pathGraph "B", cloC pathGraph "B", betC pathGraph "B", eigC pathGraph "B"⟩,
         ⟨"C", degC pathGraph "C", cloC pathGraph "C", betC pathGraph "C", eigC pathGraph "C"⟩]
  have hd : degC pathGraph "A" = 1 / 2 := by
    norm_num +decide [degC, pathGraph, projDegree, neighbors, adjacent]
  have hc : cloC pathGraph "A" = 2 / 3 := by
    norm_num +decide [cloC, pathGraph, bfsDist, bfsBall, adjacent, List.range, List.range.loop]
  have hb : betC pathGraph "A" = 0 := by
    norm_num +decide [betC, pathGraph, pairContrib, simplePaths, simplePathsAux, pathWeight, wAdj, adjacent]
  have he : eigC pathGraph "A" = 2 := by
    norm_num +decide [eigC, pathGraph, powerIter, powerStep, wAdj]
  rw [hd, hc, hb, he]
  exact List.mem_cons_self _ _

/-- Inserting into a list does not change the sublist of entries holding
any fixed score: the insertion point only passes over strictly larger
scores. -/
lemma filter_orderedInsert_score (s : ℚ) (x : String × ℚ) :
    ∀ l : List (String × ℚ),
      (l.orderedInsert (fun a b => b.2 ≤ a.2) x).filter (fun r => r.2 = s)
        = (x :: l).filter (fun r => r.2 = s)
  | [] => rfl
  | y :: t => by
    simp only [List.orderedInsert]
    by_cases hxy : y.2 ≤ x.2
    · rw [if_pos hxy]
    · rw [if_neg hxy]
      have ih := filter_orderedInsert_score s x t
      by_cases hy : y.2 = s
      · have hx : ¬ x.2 = s := fun hxs => hxy (le_of_eq (hy.trans hxs.symm))
        simp [List.filter_cons, hy, hx, ih]
      · simp [List.filter_cons, hy, ih]

/-- The stable descending sort preserves, for every score, the sublist
of rows holding that score. -/
lemma filter_insertionSort_score (s : ℚ) :
    ∀ l : List (String × ℚ),
      (l.insertionSort (fun a b => b.2 ≤ a.2)).filter (fun r => r.2 = s)
        = l.filter (fun r => r.2 = s)
  | [] => rfl
  | x :: t => by
    have h1 := filter_orderedInsert_score s x (t.insertionSort (fun a b => b.2 ≤ a.2))
    have h2 := filter_insertionSort_score s t
    simp only [List.insertionSort, h1, List.filter_cons, h2]

/-- C6: pandas `nlargest(k, metric)` (the ranking tab's `top_k`) returns
at most k rows; when the table has at most k rows it returns exactly the
table's rows; scores are non-increasing across the returned sequence;
and rows of equal score keep the input table's order: for every score,
the returned rows holding it form a prefix of the table's rows holding
it, in table order. -/
theorem top_k_spec (col : List (String × ℚ)) (k : Nat) (_hk : 1 ≤ k) :
    (nlargest k col).length ≤ k ∧
    (col.length ≤ k → (nlargest k col).Perm col) ∧
    List.Pairwise (fun a b : String × ℚ => b.2 ≤ a.2) (nlargest k col) ∧
    ∀ s : ℚ, (nlargest k col).filter (fun r => r.2 = s)
      <+: col.filter (fun r => r.2 = s) := by
  unfold nlargest
  refine ⟨?_, ?_, ?_, ?_⟩
  · exact List.length_take_le k _
  · intro hlen
    have hl : (col.insertionSort (fun a b => b.2 ≤ a.2)).length = col.length :=
      List.length_insertionSort _ col
    rw [List.take_of_length_le (by rw [hl]; exact hlen)]
    exact List.perm_insertionSort _ col
  · have hs : List.Sorted (fun a b : String × ℚ => b.2 ≤ a.2)
        (col.insertionSort (fun a b => b.2 ≤ a.2)) := by
      haveI : IsTotal (String × ℚ) (fun a b : String × ℚ => b.2 ≤ a.2) :=
        ⟨fun a b => le_total b.2 a.2⟩
      haveI : IsTrans (String × ℚ) (fun a b : String × ℚ => b.2 ≤ a.2) :=
        ⟨fun _ _ _ h1 h2 => le_trans h2 h1⟩
      exact List.sorted_insertionSort _ col
    exact List.Pairwise.sublist (List.take_sublist _ _) hs
  · intro s
    have hp := ( List.take_prefix k
      (col.insertionSort (fun a b => b.2 ≤ a.2))).filter
        (fun r : String × ℚ => decide (r.2 = s))
    rw [filter_insertionSort_score s col] at hp
    exact hp

/-- Witness for C6 at a concrete table and k. -/
theorem top_k_spec_witness :
    (nlargest 2 [("A", (1 : ℚ)), ("B", 2)]).length ≤ 2 ∧
    (nlargest 2 [("A", (1 : ℚ)), ("B", 2)]).Perm [("A", (1 : ℚ)), ("B", 2)] :=
  ⟨(top_k_spec [("A", (1 : ℚ)), ("B", 2)] 2 (by norm_num)).1,
   (top_k_spec [("A", (1 : ℚ)), ("B", 2)] 2 (by norm_num)).2.1 (by norm_num)⟩

end Sf6
